import Mathlib

/-!
Shallow embedding of the Nikobus command-delivery helpers
(`custom_components/nikobus/helpers/command.py`), of the YAML cover switch
repeat computation (`custom_components/nikobus/switch.py`), and of the YAML
cover unique-id normalization (`custom_components/nikobus/__init__.py`),
together with theorems about them.

Conventions of the embedding:
* Python runtime values that can reach `int(...)` are modelled by `PyValue`;
  Python floats are modelled as rationals.
* Raising `TypeError`/`ValueError` in `int(...)` is modelled by `Option`
  (`none` = the conversion raises).
* The asyncio future used as completion signal is modelled as
  `Option Bool` (`none` = pending); `set_result` on an already-resolved
  future raises `InvalidStateError`, modelled with `Except`.
* The async engine `send_repeated_command` is modelled as a pure function
  producing a trace (`SendResult`): the queue operations performed, the
  number of completion signals created, the number of submit-and-wait
  attempts, and the timeout value used by each waiting attempt. The
  environment is a function `resolves : ℕ → Bool` telling, for each attempt
  number, whether that attempt's completion signal resolves before its
  timeout elapses. The unbounded `while True:` loop is run on explicit
  fuel; the wrapper supplies fuel that is provably sufficient.
-/

/-- A Python value that may appear as the configured `cover_signal_repeat`. -/
inductive PyValue where
  | int (n : ℤ)
  | float (q : ℚ)
  | str (s : String)
  | bool (b : Bool)
  | pynone
deriving DecidableEq, Repr

/-- Value of a nonempty all-digit character list, `none` otherwise. -/
def digitsVal (cs : List Char) : Option ℕ :=
  if cs ≠ [] ∧ cs.all Char.isDigit then
    some (cs.foldl (fun a c => a * 10 + (c.toNat - 48)) 0)
  else
    Option.none

/-- Python `int(s)` for a string: strip whitespace, optional sign, digits;
anything else raises `ValueError` (`none`). -/
def pyStrToInt (s : String) : Option ℤ :=
  match s.trim.toList with
  | [] => Option.none
  | c :: rest =>
    if c = '-' then (digitsVal rest).map (fun n => -(n : ℤ))
    else if c = '+' then (digitsVal rest).map (fun n => (n : ℤ))
    else (digitsVal (c :: rest)).map (fun n => (n : ℤ))

/-- Python `int(x)`: identity on ints, truncation toward zero on floats,
0/1 on bools, parsing on strings; `None` raises `TypeError` (`none`). -/
def py_int : PyValue → Option ℤ
  | PyValue.int n => some n
  | PyValue.float q => some (if 0 ≤ q then ⌊q⌋ else ⌈q⌉)
  | PyValue.bool b => some (if b then 1 else 0)
  | PyValue.str s => pyStrToInt s
  | PyValue.pynone => Option.none

/-- `get_repeat_count` from `helpers/command.py`:
`repeat = hass.data.get(DOMAIN, {}).get(CONF_COVER_SIGNAL_REPEAT, 1)` then
`try: return max(1, int(repeat)) except (TypeError, ValueError): return 1`.
`cfg` is the configured value, `none` when the key (or the domain dict) is
absent, in which case the default `1` is used. -/
def get_repeat_count (cfg : Option PyValue) : ℤ :=
  match py_int (cfg.getD (PyValue.int 1)) with
  | some n => max 1 n
  | Option.none => 1

/-- The inline repeat computation of
`NikobusYamlCoverSwitchEntity._send_command` in `switch.py`:
`repeat = hass.data.get(DOMAIN, {}).get(CONF_COVER_SIGNAL_REPEAT, 1)` then
`try: repeat_count = max(1, int(repeat)) except (TypeError, ValueError):
repeat_count = 1`. -/
def yaml_cover_switch_repeat_count (cfg : Option PyValue) : ℤ :=
  match py_int (cfg.getD (PyValue.int 1)) with
  | some n => max 1 n
  | Option.none => 1

/-- An asyncio future holding a `Bool`; `none` = pending. -/
abbrev Future := Option Bool

/-- `done.done()`. -/
def Future.isDone (f : Future) : Bool := f.isSome

/-- `done.set_result(v)`: raises `InvalidStateError` when already resolved. -/
def Future.setResult (f : Future) (v : Bool) : Except String Future :=
  match f with
  | some _ => Except.error "InvalidStateError"
  | Option.none => Except.ok (some v)

/-- `_completion_handler` from `send_repeated_command`:
`if not done.done(): done.set_result(True)`; returns the (possibly updated)
future, or an error if an exception escapes. -/
def completion_handler (done : Future) : Except String Future :=
  if done.isDone = false then done.setResult true else Except.ok done

/-- Modelled from the spec: the three timing constants imported from
`const.py` (`COMMAND_ACK_WAIT_TIMEOUT`, `COMMAND_EXECUTION_DELAY`,
`COMMAND_REPEAT_BURST_DELAY`); `const.py` is not part of the sources, so
the constants are carried as parameters. The spec describes them as a base
acknowledgment-wait constant and two per-repeat delay constants (a shorter
burst delay and a longer execution delay). -/
structure TimingConstants where
  command_ack_wait_timeout : ℚ
  command_execution_delay : ℚ
  command_repeat_burst_delay : ℚ
deriving DecidableEq, Repr

/-- One operation observed by the command queue: an individual
`queue_command` or a `queue_command_batch`, each recording whether a
completion handler was attached. -/
inductive QueueEvent where
  | single (cmd : String) (hasHandler : Bool)
  | batch (cmds : List String) (hasHandler : Bool)
deriving DecidableEq, Repr

/-- Number of command copies an event puts on the queue. -/
def QueueEvent.copies : QueueEvent → ℕ
  | QueueEvent.single _ _ => 1
  | QueueEvent.batch cs _ => cs.length

/-- Total number of command copies enqueued by a list of events. -/
def copiesEnqueued (es : List QueueEvent) : ℕ :=
  (es.map QueueEvent.copies).sum

/-- Trace of one `send_repeated_command` call. -/
structure SendResult where
  returnValue : Bool
  events : List QueueEvent
  signalsCreated : ℕ
  attempts : ℕ
  timeoutsUsed : List ℚ
deriving DecidableEq, Repr

/-- The queue operations of the `wait_for_completion=False` branch:
one batch of `repeat_count` copies when `use_burst_queue and
repeat_count > 1`, else `repeat_count` plain `queue_command` calls. -/
def fire_and_forget_events (command : String) (repeat_count : ℕ)
    (use_burst_queue : Bool) : List QueueEvent :=
  if use_burst_queue = true ∧ 1 < repeat_count then
    [QueueEvent.batch (List.replicate repeat_count command) false]
  else
    List.replicate repeat_count (QueueEvent.single command false)

/-- The queue operations of one waiting attempt: a batch carrying the
completion handler when `use_burst_queue and repeat_count > 1`, else
`repeat_count` individual calls where
`handler = _completion_handler if idx == repeat_count - 1 else None`. -/
def waiting_attempt_events (command : String) (repeat_count : ℕ)
    (use_burst_queue : Bool) : List QueueEvent :=
  if use_burst_queue = true ∧ 1 < repeat_count then
    [QueueEvent.batch (List.replicate repeat_count command) true]
  else
    (List.range repeat_count).map fun idx =>
      QueueEvent.single command (decide (idx = repeat_count - 1))

/-- The `if timeout is None:` derivation in `send_repeated_command`:
`COMMAND_ACK_WAIT_TIMEOUT + COMMAND_REPEAT_BURST_DELAY * repeat_count`
when `use_burst_queue and repeat_count > 1`, else
`COMMAND_ACK_WAIT_TIMEOUT + COMMAND_EXECUTION_DELAY * repeat_count`. -/
def derive_default_timeout (K : TimingConstants) (use_burst_queue : Bool)
    (repeat_count : ℕ) : ℚ :=
  if use_burst_queue = true ∧ 1 < repeat_count then
    K.command_ack_wait_timeout + K.command_repeat_burst_delay * repeat_count
  else
    K.command_ack_wait_timeout + K.command_execution_delay * repeat_count

/-- The `while True:` loop of `send_repeated_command`, run on fuel.
`attempt` is the counter before the `attempt += 1` of the next iteration;
`timeout` is the current value of the Python local (`none` = `None`).
Each iteration: increment `attempt`; in the non-waiting branch enqueue and
return `True`; otherwise create a fresh future, enqueue with the handler on
the last command (or on the batch), derive the timeout if still `None`,
and wait: if the signal resolves return `True`, else on timeout return
`False` when `attempt > retries + 1`, otherwise loop. -/
def send_loop (K : TimingConstants) (command : String) (repeat_count : ℕ)
    (wait_for_completion : Bool) (use_burst_queue : Bool) (retries : ℤ)
    (resolves : ℕ → Bool) (attempt : ℕ) (timeout : Option ℚ) :
    ℕ → Option SendResult
  | 0 => Option.none
  | fuel + 1 =>
    let att := attempt + 1
    if wait_for_completion = false then
      some ⟨true, fire_and_forget_events command repeat_count use_burst_queue,
        0, 1, []⟩
    else
      let evs := waiting_attempt_events command repeat_count use_burst_queue
      let t := timeout.getD (derive_default_timeout K use_burst_queue repeat_count)
      if resolves att then
        some ⟨true, evs, 1, 1, [t]⟩
      else if (att : ℤ) > retries + 1 then
        some ⟨false, evs, 1, 1, [t]⟩
      else
        match send_loop K command repeat_count wait_for_completion
            use_burst_queue retries resolves att (some t) fuel with
        | Option.none => Option.none
        | some r =>
          some ⟨r.returnValue, evs ++ r.events, 1 + r.signalsCreated,
            1 + r.attempts, t :: r.timeoutsUsed⟩

/-- `send_repeated_command` from `helpers/command.py`, as a trace function.
`repeat_count = get_repeat_count(coordinator.hass)`; the loop is started
with `attempt = 0` and fuel `retries.toNat + 2`, which always suffices. -/
def send_repeated_command (K : TimingConstants) (cfg : Option PyValue)
    (command : String) (wait_for_completion : Bool) (timeout : Option ℚ)
    (retries : ℤ) (use_burst_queue : Bool) (resolves : ℕ → Bool) :
    Option SendResult :=
  send_loop K command (get_repeat_count cfg).toNat wait_for_completion
    use_burst_queue retries resolves 0 timeout (retries.toNat + 2)

/-! ## Theorems -/

/-- C4: for every configured repeat-count value — absent key, zero,
negative, non-integer float, string, bool or `None` — `get_repeat_count`
returns an integer ≥ 1 and never raises (raising paths of `int(...)` are
the `none` branch of `py_int`, handled by the `except` clause). -/
theorem get_repeat_count_ge_one (cfg : Option PyValue) :
    1 ≤ get_repeat_count cfg := by
  unfold get_repeat_count
  cases py_int (cfg.getD (PyValue.int 1)) with
  | none => exact le_refl 1
  | some n => exact le_max_left 1 n

/-- C9: the inline repeat computation of the YAML cover switch
(`switch.py`, `_send_command`) agrees with the shared helper
`get_repeat_count` on every configuration value. -/
theorem yaml_cover_switch_repeat_count_eq_helper (cfg : Option PyValue) :
    yaml_cover_switch_repeat_count cfg = get_repeat_count cfg := rfl

/-- C5: a completion signal resolves at most once. Invoking
`_completion_handler` never raises: on a pending future it resolves it to
`True`, on an already-resolved future it is a no-op; in particular a second
invocation returns the future unchanged, so it cannot alter an outcome
already observed. -/
theorem completion_handler_at_most_once (f : Future) :
    completion_handler f = Except.ok (some (f.getD true)) ∧
      completion_handler (some (f.getD true)) = Except.ok (some (f.getD true)) := by
  cases f with
  | none => exact ⟨rfl, rfl⟩
  | some v => exact ⟨rfl, rfl⟩

/-- C8: with no explicit timeout, the timeout derived in sequential mode
(base + execution delay × repeat_count) strictly exceeds the one derived
in burst mode (base + burst delay × repeat_count) for the same
`repeat_count > 1`, given the spec's ordering of the delay constants. -/
theorem sequential_timeout_gt_burst_timeout (K : TimingConstants) (rc : ℕ)
    (hdelay : K.command_repeat_burst_delay < K.command_execution_delay)
    (hrc : 1 < rc) :
    derive_default_timeout K true rc < derive_default_timeout K false rc := by
  unfold derive_default_timeout
  have htrue : (true = true ∧ 1 < rc) := ⟨rfl, hrc⟩
  have hfalse : ¬(false = true ∧ 1 < rc) := by simp
  rw [if_pos htrue, if_neg hfalse]
  have hrcpos : (0 : ℚ) < (rc : ℚ) := by
    exact_mod_cast Nat.lt_of_lt_of_le Nat.zero_lt_one hrc.le
  exact add_lt_add_left (mul_lt_mul_of_pos_right hdelay hrcpos) _

/-- Witness for C8 at the spec's example values (base 2 s, burst delay
0.3 s) and an execution delay of 1 s, with `repeat_count = 3`. -/
theorem sequential_timeout_gt_burst_timeout_witness :
    ((3 / 10 : ℚ) < 1) ∧ (1 < 3) ∧
      derive_default_timeout ⟨2, 1, 3 / 10⟩ true 3 <
        derive_default_timeout ⟨2, 1, 3 / 10⟩ false 3 :=
  ⟨by norm_num, by norm_num,
    sequential_timeout_gt_burst_timeout ⟨2, 1, 3 / 10⟩ 3 (by norm_num) (by norm_num)⟩

/-- Helper: with `wait_for_completion=True` and a completion signal that
never resolves, the loop starting at counter `attempt` with enough fuel
performs `(retries + 1 - attempt).toNat + 1` further attempts, each
enqueueing the same events with the same timeout, and returns `False`. -/
lemma send_loop_never_resolves (K : TimingConstants) (cmd : String) (rc : ℕ)
    (burst : Bool) (retries : ℤ) :
    ∀ (n fuel attempt : ℕ) (tmo : Option ℚ),
      (retries + 1 - attempt).toNat = n → n + 1 ≤ fuel →
      send_loop K cmd rc true burst retries (fun _ => false) attempt tmo fuel =
        some ⟨false,
          (List.replicate (n + 1) (waiting_attempt_events cmd rc burst)).flatten,
          n + 1, n + 1,
          List.replicate (n + 1)
            (tmo.getD (derive_default_timeout K burst rc))⟩ := by
  intro n
  induction n with
  | zero =>
    intro fuel attempt tmo hn hfuel
    obtain ⟨f, rfl⟩ : ∃ f, fuel = f + 1 := ⟨fuel - 1, by omega⟩
    have hc : ((attempt + 1 : ℕ) : ℤ) > retries + 1 := by omega
    rw [send_loop]
    simp [hc]
    intro hle
    exact absurd hle (by omega)
  | succ n ih =>
    intro fuel attempt tmo hn hfuel
    obtain ⟨f, rfl⟩ : ∃ f, fuel = f + 1 := ⟨fuel - 1, by omega⟩
    have hc : ¬(((attempt + 1 : ℕ) : ℤ) > retries + 1) := by omega
    rw [send_loop]
    have hrec := ih f (attempt + 1)
      (some (tmo.getD (derive_default_timeout K burst rc)))
      (by omega) (by omega)
    simp only [hrec, hc]
    simp [List.replicate_succ, Nat.add_comm 1 n]
    omega

/-- Helper: whenever the waiting loop returns a result, every attempt of
that result used the same effective timeout: the caller's value if one was
current at entry, otherwise the derived default — which is therefore
computed once and reused by all retries. -/
lemma send_loop_timeouts (K : TimingConstants) (cmd : String) (rc : ℕ)
    (burst : Bool) (retries : ℤ) (resolves : ℕ → Bool) :
    ∀ (fuel attempt : ℕ) (tmo : Option ℚ) (r : SendResult),
      send_loop K cmd rc true burst retries resolves attempt tmo fuel = some r →
      r.timeoutsUsed =
        List.replicate r.attempts
          (tmo.getD (derive_default_timeout K burst rc)) := by
  intro fuel
  induction fuel with
  | zero =>
    intro attempt tmo r h
    rw [send_loop] at h
    exact absurd h (by simp)
  | succ fuel ih =>
    intro attempt tmo r h
    rw [send_loop] at h
    simp only [Bool.true_eq_false, if_false] at h
    by_cases hres : resolves (attempt + 1) = true
    · rw [if_pos hres] at h
      obtain ⟨rfl⟩ := h
      simp
    · rw [if_neg hres] at h
      by_cases hc : ((attempt + 1 : ℕ) : ℤ) > retries + 1
      · rw [if_pos hc] at h
        obtain ⟨rfl⟩ := h
        simp
      · rw [if_neg hc] at h
        cases hrec : send_loop K cmd rc true burst retries resolves (attempt + 1)
            (some (tmo.getD (derive_default_timeout K burst rc))) fuel with
        | none =>
          rw [hrec] at h
          simp at h
        | some r2 =>
          rw [hrec] at h
          simp only [Option.some.injEq] at h
          subst h
          have ht := ih (attempt + 1)
            (some (tmo.getD (derive_default_timeout K burst rc))) r2 hrec
          simp only [Option.getD_some] at ht
          simp [ht, List.replicate_succ, Nat.add_comm 1 r2.attempts]

/-- C1 (actual code behavior, refuting the claimed attempt count): with
`wait_for_completion=True` and a completion signal that never resolves,
`send_repeated_command` with retry budget `R ≥ 0` performs `R + 2`
submit-and-wait attempts — not the `R + 1` the spec states — each creating
its own fresh completion signal, and then returns `False`. The loop's exit
test `attempt > retries + 1` runs only after the attempt it should have
prevented has already been made. -/
theorem send_repeated_command_never_resolves_behavior (K : TimingConstants)
    (cfg : Option PyValue) (cmd : String) (burst : Bool) (R : ℕ) :
    ∃ r, send_repeated_command K cfg cmd true Option.none (R : ℤ) burst
        (fun _ => false) = some r ∧
      r.returnValue = false ∧ r.attempts = R + 2 ∧
      r.signalsCreated = R + 2 := by
  have h := send_loop_never_resolves K cmd (get_repeat_count cfg).toNat burst
    (R : ℤ) (R + 1) ((R : ℤ).toNat + 2) 0 Option.none (by omega) (by omega)
  exact ⟨_, by rw [send_repeated_command]; exact h, rfl, rfl, rfl⟩

/-- C2: `wait_for_completion=False` always returns `True` and, as its only
queue effect, enqueues exactly `repeat_count` copies of the command — one
batch of `repeat_count` identical commands when `use_burst_queue` and
`repeat_count > 1`, else `repeat_count` individual `queue_command` calls in
sequence — awaiting no acknowledgment (no completion signal is created). -/
theorem send_repeated_command_fire_and_forget (K : TimingConstants)
    (cfg : Option PyValue) (cmd : String) (tmo : Option ℚ) (retries : ℤ)
    (burst : Bool) (resolves : ℕ → Bool) :
    ∃ r, send_repeated_command K cfg cmd false tmo retries burst resolves
        = some r ∧
      r.returnValue = true ∧ r.signalsCreated = 0 ∧
      copiesEnqueued r.events = (get_repeat_count cfg).toNat ∧
      (burst = true ∧ 1 < (get_repeat_count cfg).toNat →
        r.events = [QueueEvent.batch
          (List.replicate (get_repeat_count cfg).toNat cmd) false]) ∧
      (¬(burst = true ∧ 1 < (get_repeat_count cfg).toNat) →
        r.events = List.replicate (get_repeat_count cfg).toNat
          (QueueEvent.single cmd false)) := by
  refine ⟨⟨true, fire_and_forget_events cmd (get_repeat_count cfg).toNat burst,
    0, 1, []⟩, ?_, rfl, rfl, ?_, ?_, ?_⟩
  · rw [send_repeated_command,
      show retries.toNat + 2 = (retries.toNat + 1) + 1 from rfl, send_loop]
    simp
  · unfold fire_and_forget_events copiesEnqueued
    split
    · simp [QueueEvent.copies]
    · simp [QueueEvent.copies, List.map_replicate]
  · intro hb
    simp only [fire_and_forget_events, if_pos hb]
  · intro hb
    simp only [fire_and_forget_events, if_neg hb]

/-- C3: with `wait_for_completion=True` and a completion signal that
resolves before the timeout, `send_repeated_command` returns `True` after
exactly one attempt — one set of enqueued commands, one completion signal —
regardless of the `retries` argument. -/
theorem send_repeated_command_resolved_first_attempt (K : TimingConstants)
    (cfg : Option PyValue) (cmd : String) (tmo : Option ℚ) (retries : ℤ)
    (burst : Bool) (resolves : ℕ → Bool) (hres : resolves 1 = true) :
    ∃ r, send_repeated_command K cfg cmd true tmo retries burst resolves
        = some r ∧
      r.returnValue = true ∧ r.attempts = 1 ∧ r.signalsCreated = 1 ∧
      r.events = waiting_attempt_events cmd (get_repeat_count cfg).toNat
        burst := by
  refine ⟨⟨true, waiting_attempt_events cmd (get_repeat_count cfg).toNat burst,
    1, 1, [tmo.getD (derive_default_timeout K burst
      (get_repeat_count cfg).toNat)]⟩, ?_, rfl, rfl, rfl, rfl⟩
  rw [send_repeated_command,
    show retries.toNat + 2 = (retries.toNat + 1) + 1 from rfl, send_loop]
  simp [hres]

/-- Witness for C3 at a concrete input: repeat count 3, burst queue,
`retries = 5`, signal resolving on the first attempt. -/
theorem send_repeated_command_resolved_first_attempt_witness :
    ((fun _ : ℕ => true) 1 = true) ∧
      ∃ r, send_repeated_command ⟨2, 1, 3 / 10⟩ (some (PyValue.int 3)) "c"
          true Option.none 5 true (fun _ => true) = some r ∧
        r.returnValue = true ∧ r.attempts = 1 ∧ r.signalsCreated = 1 ∧
        r.events = waiting_attempt_events "c"
          (get_repeat_count (some (PyValue.int 3))).toNat true :=
  ⟨rfl, send_repeated_command_resolved_first_attempt ⟨2, 1, 3 / 10⟩
    (some (PyValue.int 3)) "c" Option.none 5 true (fun _ => true) rfl⟩

/-- C6: in a waiting attempt the completion callback is attached only to
the logically last repeated command: in sequential mode the first
`repeat_count - 1` individual `queue_command` calls carry no handler and
the final one carries it; in burst mode (`repeat_count > 1`) the handler
is attached to the single batch; and when `repeat_count = 1` the burst
queue is not used even if requested — behavior is identical to sequential
mode. -/
theorem completion_callback_on_last_only (cmd : String) (rc : ℕ)
    (burst : Bool) (hrc : 1 ≤ rc) :
    (burst = true ∧ 1 < rc →
      waiting_attempt_events cmd rc burst =
        [QueueEvent.batch (List.replicate rc cmd) true]) ∧
    (¬(burst = true ∧ 1 < rc) →
      waiting_attempt_events cmd rc burst =
        List.replicate (rc - 1) (QueueEvent.single cmd false) ++
          [QueueEvent.single cmd true]) ∧
    (rc = 1 →
      waiting_attempt_events cmd rc burst =
          waiting_attempt_events cmd rc false ∧
        waiting_attempt_events cmd rc burst = [QueueEvent.single cmd true]) := by
  obtain ⟨m, rfl⟩ : ∃ m, rc = m + 1 := ⟨rc - 1, by omega⟩
  refine ⟨?_, ?_, ?_⟩
  · intro hb
    unfold waiting_attempt_events
    rw [if_pos hb]
  · intro hb
    unfold waiting_attempt_events
    rw [if_neg hb, List.range_succ, List.map_append]
    congr 1
    · have hmap : ∀ i ∈ List.range m,
          QueueEvent.single cmd (decide (i = m + 1 - 1)) =
            QueueEvent.single cmd false := by
        intro i hi
        have him : i < m := List.mem_range.mp hi
        simp [Nat.ne_of_lt him]
      rw [List.map_congr_left hmap]
      simp [List.eq_replicate_iff]
    · simp
  · intro h1
    have hm : m = 0 := by omega
    subst hm
    unfold waiting_attempt_events
    constructor
    · rcases burst with _ | _ <;> simp
    · rcases burst with _ | _ <;> simp [List.range_succ]

/-- Witness for C6 at `repeat_count = 3` in sequential mode. -/
theorem completion_callback_on_last_only_witness :
    (1 ≤ 3) ∧
      ((false = true ∧ 1 < 3 →
        waiting_attempt_events "c" 3 false =
          [QueueEvent.batch (List.replicate 3 "c") true]) ∧
      (¬(false = true ∧ 1 < 3) →
        waiting_attempt_events "c" 3 false =
          List.replicate (3 - 1) (QueueEvent.single "c" false) ++
            [QueueEvent.single "c" true]) ∧
      (3 = 1 →
        waiting_attempt_events "c" 3 false =
            waiting_attempt_events "c" 3 false ∧
          waiting_attempt_events "c" 3 false = [QueueEvent.single "c" true])) :=
  ⟨by omega, completion_callback_on_last_only "c" 3 false (by omega)⟩

/-- C7: in every waiting call, all attempts use the same effective
timeout: the caller's value unchanged when one was supplied, otherwise the
value derived on the first attempt as the base acknowledgment-wait
constant plus the per-repeat delay constant (burst delay when
`use_burst_queue` and `repeat_count > 1`, execution delay otherwise)
times `repeat_count`, reused unchanged for all retries. -/
theorem effective_timeout_policy (K : TimingConstants) (cfg : Option PyValue)
    (cmd : String) (tmo : Option ℚ) (retries : ℤ) (burst : Bool)
    (resolves : ℕ → Bool) (r : SendResult)
    (h : send_repeated_command K cfg cmd true tmo retries burst resolves
      = some r) :
    r.timeoutsUsed = List.replicate r.attempts
      (tmo.getD (derive_default_timeout K burst
        (get_repeat_count cfg).toNat)) :=
  send_loop_timeouts K cmd (get_repeat_count cfg).toNat burst retries resolves
    (retries.toNat + 2) 0 tmo r h

/-- Witness for C7: repeat count 2, caller-supplied timeout `7`,
never-resolving signal, one retry — all three attempts use `7` unchanged. -/
theorem effective_timeout_policy_witness :
    (send_repeated_command ⟨2, 1, 1⟩ (some (PyValue.int 2)) "c" true
        (some 7) 1 false (fun _ => false) =
      some ⟨false,
        [QueueEvent.single "c" false, QueueEvent.single "c" true,
          QueueEvent.single "c" false, QueueEvent.single "c" true,
          QueueEvent.single "c" false, QueueEvent.single "c" true],
        3, 3, [7, 7, 7]⟩) ∧
      ([(7 : ℚ), 7, 7] = List.replicate 3
        ((some (7 : ℚ)).getD (derive_default_timeout ⟨2, 1, 1⟩
          false (get_repeat_count (some (PyValue.int 2))).toNat))) :=
  ⟨by decide, effective_timeout_policy ⟨2, 1, 1⟩ (some (PyValue.int 2))
    "c" (some 7) 1 false (fun _ => false)
    ⟨false,
      [QueueEvent.single "c" false, QueueEvent.single "c" true,
        QueueEvent.single "c" false, QueueEvent.single "c" true,
        QueueEvent.single "c" false, QueueEvent.single "c" true],
      3, 3, [7, 7, 7]⟩ (by decide)⟩

/-- Python `str.upper()` on the code strings (ASCII hex), as a
structurally recursive map over the characters. -/
def pyUpper (s : String) : String := String.mk (s.data.map Char.toUpper)

/-- The integration domain string; in the host platform an integration's
domain equals its directory name, here `custom_components/nikobus`. -/
def DOMAIN : String := "nikobus"

/-- The digest input built by `_normalize_yaml_covers` in `__init__.py`:
the three codes are upper-cased and then
`":".join(sorted([up_code, down_code, stop_code]))` is hashed. -/
def cover_digest_input (up_code down_code stop_code : String) : String :=
  String.intercalate ":"
    (List.insertionSort (fun a b => a ≤ b)
      [pyUpper up_code, pyUpper down_code, pyUpper stop_code])

/-- The `unique_id` assigned by `_normalize_yaml_covers`:
`f"{DOMAIN}_yaml_cover_{digest}"` where `digest` is the first 12 characters
of `hashlib.sha1(digest_input.encode("utf-8")).hexdigest()`. SHA-1 is an
external deterministic function of the digest input, carried here as the
parameter `sha1hex`. -/
def cover_unique_id (sha1hex : String → String)
    (up_code down_code stop_code : String) : String :=
  DOMAIN ++ "_yaml_cover_" ++
    ((sha1hex (cover_digest_input up_code down_code stop_code)).take 12)

/-- C10: the unique id of a YAML cover is invariant under letter case and
permutation of its up/down/stop codes: whenever the upper-cased codes of
one cover are a permutation of the upper-cased codes of another, both
receive the identical unique id, for every deterministic hash function. -/
theorem cover_unique_id_case_perm_invariant (sha1hex : String → String)
    (u d s u2 d2 s2 : String)
    (hperm : List.Perm [pyUpper u, pyUpper d, pyUpper s]
      [pyUpper u2, pyUpper d2, pyUpper s2]) :
    cover_unique_id sha1hex u d s = cover_unique_id sha1hex u2 d2 s2 := by
  have hsorted :
      List.insertionSort (fun a b : String => a ≤ b)
          [pyUpper u, pyUpper d, pyUpper s] =
        List.insertionSort (fun a b : String => a ≤ b)
          [pyUpper u2, pyUpper d2, pyUpper s2] :=
    List.eq_of_perm_of_sorted
      ((List.perm_insertionSort _ _).trans
        (hperm.trans (List.perm_insertionSort _ _).symm))
      (List.sorted_insertionSort _ _) (List.sorted_insertionSort _ _)
  unfold cover_unique_id cover_digest_input
  rw [hsorted]

/-- Witness for C10: two covers whose codes agree as hex strings up to
case and ordering (hash instantiated with the identity function). -/
theorem cover_unique_id_case_perm_invariant_witness :
    (List.Perm [pyUpper "1a2b3c", pyUpper "aabbcc", pyUpper "001122"]
      [pyUpper "AABBCC", pyUpper "1A2B3C", pyUpper "001122"]) ∧
      cover_unique_id (fun x => x) "1a2b3c" "aabbcc" "001122" =
        cover_unique_id (fun x => x) "AABBCC" "1A2B3C" "001122" :=
  ⟨by decide, cover_unique_id_case_perm_invariant (fun x => x)
    "1a2b3c" "aabbcc" "001122" "AABBCC" "1A2B3C" "001122" (by decide)⟩
